import Mathlib

/-!
Verification of `xortest.c` (coruus/go-sha3, xor test harness).

The program consists of:
  * an external XOR primitive `xorinto_gpr(dst, a, b, n)` (declared in
    `print-impl.h`, not part of the sources here);
  * `main`: a correctness check over buffers of length `N = 31`;
  * `bench`: a benchmark sweep over sizes 1..96 with `REPS = 65536`
    repetitions per size, over buffers of capacity 200.

Byte buffers are modelled as `List Nat` whose entries are byte values
(`< 256` where it matters); machine arithmetic is made explicit with
`% 256` / `% 2 ^ 64`.  The C `double` used for cycles-per-byte is
modelled exactly over `ℚ`.
-/

set_option maxRecDepth 8000

namespace XorTest

/-- The constant `N` (31) of xortest.c: the length of the check buffers. -/
def N : Nat := 31

/-- The constant `REPS` (65536) of xortest.c: repetitions per size. -/
def REPS : Nat := 65536

/-- Modelled from the spec: the XOR primitive `xorinto_gpr` is only declared
in `print-impl.h`, which is not among the sources; §4.1 of the spec gives its
contract: for every index `i` in `[0, n)` it sets `destination[i] = a[i] XOR
b[i]`, bytes at indices `≥ n` are unspecified (this model leaves them
unchanged, one allowed behaviour), and the result has the destination's
capacity. -/
def xorinto_gpr (dst a b : List Nat) (n : Nat) : List Nat :=
  (List.range dst.length).map fun i =>
    if i < n then (a.getD i 0) ^^^ (b.getD i 0) else dst.getD i 0

/-- Buffer `s1` of `main`: `s1[i] = 67 * i` assigned to a `uint8_t`, i.e.
reduced mod 256. -/
def source1 : List Nat := (List.range N).map fun i => (67 * i) % 256

/-- Buffer `s2` of `main`: `s2[i] = i` assigned to a `uint8_t`, i.e. reduced
mod 256. -/
def source2 : List Nat := (List.range N).map fun i => i % 256

/-- One mismatch diagnostic of `main`'s check loop: the failing index and the
three byte values `s1[i]`, `s2[i]`, `dst[i]` passed to `printf`. -/
structure Diag where
  i : Nat
  s1 : Nat
  s2 : Nat
  d : Nat
deriving DecidableEq, Repr

/-- Verification loop of `main` (lines 45-49): for each `i` in `[0, N)`, if
`(s1[i] ^ s2[i]) != dst[i]` emit a diagnostic, and in every case continue with
the next index.  Parametric in the destination buffer `dst` produced by the
external primitive. -/
def checkScan (dst : List Nat) : List Diag :=
  (List.range N).filterMap fun i =>
    if (source1.getD i 0) ^^^ (source2.getD i 0) ≠ dst.getD i 0 then
      some ⟨i, source1.getD i 0, source2.getD i 0, dst.getD i 0⟩
    else none

/-- One invocation of `xorinto_gpr`, recorded as the length argument `n` and
the lengths of the three buffers handed over at the call site. -/
structure CallSite where
  n : Nat
  lenDst : Nat
  lenA : Nat
  lenB : Nat
deriving DecidableEq, Repr

/-- Call sites of `main`: it calls `xorinto_gpr(dst, s1, s2, N)` exactly
once, on three arrays declared `uint8_t …[N]`. -/
def mainCallSites : List CallSite := [⟨N, N, N, N⟩]

/-- Buffer `s1` of `bench`: `uint8_t s1[200] = {0}`. -/
def benchS1 : List Nat := List.replicate 200 0

/-- Buffer `s2` of `bench`: `uint8_t s2[200] = {0}`. -/
def benchS2 : List Nat := List.replicate 200 0

/-- Buffer `dst` of `bench`: `uint8_t dst[200] = {0}`. -/
def benchDst0 : List Nat := List.replicate 200 0

/-- Repetition loop of `bench` (lines 18-20): `r` iterations of
`xorinto_gpr(dst, s1, s2, n)` starting from destination buffer `dst`.
Returns the final destination buffer paired with the trace of call sites in
execution order. -/
def repLoop (n : Nat) (dst : List Nat) : Nat → List Nat × List CallSite
  | 0 => (dst, [])
  | r + 1 =>
      let p := repLoop n dst r
      (xorinto_gpr p.1 benchS1 benchS2 n,
       p.2 ++ [⟨n, p.1.length, benchS1.length, benchS2.length⟩])

/-- Size loop of `bench` (lines 16-27) after its first `k` sizes: the
destination buffer is threaded through the whole sweep, and the call-site
traces of the sizes `1, …, k` are concatenated in order. -/
def benchLoop : Nat → List Nat × List CallSite
  | 0 => (benchDst0, [])
  | k + 1 =>
      let p := benchLoop k
      let q := repLoop (k + 1) p.1 REPS
      (q.1, p.2 ++ q.2)

/-- All `xorinto_gpr` call sites of `bench` (sizes 1..96, i.e. `n < 97`). -/
def benchCallSites : List CallSite := (benchLoop 96).2

/-- All `xorinto_gpr` call sites of the program: `main`'s single call
followed by `bench`'s sweep. -/
def programCallSites : List CallSite := mainCallSites ++ benchCallSites

/-- Reduction of a cycle-counter value to the counter's native `uint64_t`. -/
def u64 (x : Nat) : Nat := x % 2 ^ 64

/-- Subtraction `x - y` on `uint64_t` (wrap-around modulo `2 ^ 64`), for `x`
already reduced mod `2 ^ 64`. -/
def u64sub (x y : Nat) : Nat := (x + 2 ^ 64 - y % 2 ^ 64) % 2 ^ 64

/-- One benchmark sample: the size, the two cycle-counter readings taken for
it, and the reported mean cycles-per-byte. -/
structure Sample where
  n : Nat
  startC : Nat
  stopC : Nat
  cpb : ℚ
deriving DecidableEq

/-- Measurement for the size `n = k + 1` (0-based size index `k`), given the
cycle-counter oracle `c` (the value returned by the `j`-th
`__builtin_readcyclecounter()` executed by `bench` is `c j`).  `bench` reads
the counter once before the repetition loop (`start = cycles()`) and once
after (`cycles() - start`), so size index `k` uses readings `2k` and
`2k + 1`; the delta is `uint64_t` arithmetic, then `double` division by
`REPS * n` (modelled exactly over `ℚ`). -/
def benchSample (c : Nat → Nat) (k : Nat) : Sample :=
  { n := k + 1
    startC := u64 (c (2 * k))
    stopC := u64 (c (2 * k + 1))
    cpb := ((u64sub (u64 (c (2 * k + 1))) (u64 (c (2 * k))) : Nat) : ℚ) /
             ((REPS * (k + 1) : Nat) : ℚ) }

/-- The 96 samples of the sweep, in order of size. -/
def benchSamples (c : Nat → Nat) : List Sample :=
  (List.range 96).map (benchSample c)

/-- A concrete cycle-counter oracle (all readings zero), used to instantiate
theorems that are parametric in the oracle. -/
def czero : Nat → Nat := fun _ => 0

/-- Left-pad a string with spaces to minimum width `w` (printf field
width). -/
def pad (w : Nat) (s : String) : String :=
  String.mk (List.replicate (w - s.length) ' ') ++ s

/-- Rendering of a nonnegative value in the style of `%.2f`: the value is
rounded to the nearest hundredth and printed with exactly two digits after
the decimal point.  (`cpb` is always nonnegative here; the tie-breaking
printf applies to the underlying `double` is immaterial to the claims.) -/
def fixed2 (q : ℚ) : String :=
  let t := (round (q * 100)).toNat
  Nat.repr (t / 100) ++ "." ++
    String.mk [Nat.digitChar (t / 10 % 10), Nat.digitChar (t % 10)]

/-- Output of `printf("%3llu, %5.2f  ", n, cpb)` for one benchmark size: the
format string is the width-3 decimal field, the literal `", "`, the width-5
fixed-point field, and the literal `"  "`. -/
def dataPoint (n : Nat) (q : ℚ) : String :=
  pad 3 (Nat.repr n) ++ ", " ++ pad 5 (fixed2 q) ++ "  "

/-- Chunks `bench` prints for size index `k` (size `n = k + 1`): one data
point, then a newline exactly when `n % 8 == 0` (lines 23-26). -/
def sizeChunks (c : Nat → Nat) (k : Nat) : List String :=
  [dataPoint (k + 1) ((benchSample c k).cpb)] ++
    (if (k + 1) % 8 = 0 then ["\n"] else [])

/-- Everything `bench` prints: the list of `printf` outputs in order. -/
def benchChunks (c : Nat → Nat) : List String :=
  ((List.range 96).map (sizeChunks c)).flatten

/-- Rendering of a byte value (`uint8_t`, hence `< 256`) by `%02x`: exactly
the two lowercase hexadecimal digits. -/
def hexByte (v : Nat) : String :=
  String.mk [Nat.digitChar (v / 16 % 16), Nat.digitChar (v % 16)]

/-- Output of `printf("\ni=%u, %02x, %02x, %02x\n", i, s1[i], s2[i],
dst[i])` for one mismatch diagnostic. -/
def diagChunk (g : Diag) : String :=
  "\ni=" ++ Nat.repr g.i ++ ", " ++ hexByte g.s1 ++ ", " ++ hexByte g.s2 ++
    ", " ++ hexByte g.d ++ "\n"

/-- The whole program: `main` runs the correctness check (parametric in the
result `dst` of the external `xorinto_gpr`) and then `bench` (parametric in
the cycle-counter oracle `c`).  Control falls off the end of `main`, which
per C99 yields exit status 0; no other exit path (no `exit`, no `abort`, no
nonzero `return`) exists in the source, so the second component — the exit
status — is 0 on every path. -/
def mainRun (dst : List Nat) (c : Nat → Nat) : String × Nat :=
  (String.join ((checkScan dst).map diagChunk) ++ String.join (benchChunks c),
   0)

/-- The string consists of space characters only. -/
def spacesOnly (s : String) : Prop := ∀ ch ∈ s.data, ch = ' '

/-- Form asserted by the claim for a benchmark data point: the width-3 size
field and the width-5 cycles-per-byte field, separated (and possibly
surrounded) by spaces only. -/
def spaceSeparatedPoint (n : Nat) (q : ℚ) (s : String) : Prop :=
  ∃ l sep r, spacesOnly l ∧ spacesOnly sep ∧ spacesOnly r ∧
    s = l ++ pad 3 (Nat.repr n) ++ sep ++ pad 5 (fixed2 q) ++ r

/-- The sixteen lowercase hexadecimal digit characters. -/
def lowercaseHexDigits : List Char :=
  ['0', '1', '2', '3', '4', '5', '6', '7', '8', '9'] ++
    ['a', 'b', 'c', 'd', 'e', 'f']

/- ------------------------------------------------------------------ -/
/- Helper lemmas                                                      -/
/- ------------------------------------------------------------------ -/

theorem length_xorinto_gpr (dst a b : List Nat) (n : Nat) :
    (xorinto_gpr dst a b n).length = dst.length := by
  simp [xorinto_gpr]

theorem getD_xorinto_gpr (dst a b : List Nat) (n i : Nat)
    (hi : i < n) (hdst : n ≤ dst.length) :
    (xorinto_gpr dst a b n).getD i 0 = (a.getD i 0) ^^^ (b.getD i 0) := by
  have hlen : i < dst.length := lt_of_lt_of_le hi hdst
  rw [List.getD_eq_getElem _ _ (by simpa [length_xorinto_gpr] using hlen)]
  simp [xorinto_gpr, hlen, hi]

theorem repLoop_fst_length (n : Nat) (dst : List Nat) (r : Nat) :
    ((repLoop n dst r).1).length = dst.length := by
  induction r with
  | zero => rfl
  | succ r ih => simp [repLoop, length_xorinto_gpr, ih]

theorem repLoop_trace_length (n : Nat) (dst : List Nat) (r : Nat) :
    ((repLoop n dst r).2).length = r := by
  induction r with
  | zero => rfl
  | succ r ih => simp [repLoop, ih]

theorem mem_repLoop_trace (n : Nat) (dst : List Nat) (r : Nat) (cs : CallSite)
    (h : cs ∈ (repLoop n dst r).2) :
    cs = ⟨n, dst.length, 200, 200⟩ := by
  induction r with
  | zero => simp [repLoop] at h
  | succ r ih =>
      simp only [repLoop, List.mem_append, List.mem_singleton] at h
      rcases h with h | h
      · exact ih h
      · simp [h, repLoop_fst_length, benchS1, benchS2]

theorem getD_replicate_zero (n i : Nat) :
    (List.replicate n (0 : Nat)).getD i 0 = 0 := by
  induction n generalizing i with
  | zero => rfl
  | succ n ih =>
      cases i with
      | zero => rfl
      | succ i =>
          rw [List.replicate_succ, List.getD_cons_succ]
          exact ih i

/-- The benchmark's destination buffer stays all-zero: XORing the two
all-zero source buffers writes zeroes, any other index keeps its zero. -/
theorem xorinto_gpr_zero (n : Nat) :
    xorinto_gpr (List.replicate 200 0) benchS1 benchS2 n =
      List.replicate 200 0 := by
  unfold xorinto_gpr
  rw [List.length_replicate]
  have h : ∀ i, (if i < n then
      ((benchS1.getD i 0) ^^^ (benchS2.getD i 0))
      else (List.replicate 200 (0 : Nat)).getD i 0) = 0 := by
    intro i
    by_cases hi : i < n
    · rw [if_pos hi]
      show (List.replicate 200 0).getD i 0 ^^^ (List.replicate 200 0).getD i 0 = 0
      rw [getD_replicate_zero]
      decide
    · rw [if_neg hi]
      exact getD_replicate_zero 200 i
  calc (List.range 200).map (fun i => if i < n then
          ((benchS1.getD i 0) ^^^ (benchS2.getD i 0))
          else (List.replicate 200 (0 : Nat)).getD i 0)
      = (List.range 200).map (fun _ => 0) := List.map_congr_left fun i _ => h i
    _ = List.replicate 200 0 := by
        rw [List.map_const', List.length_range]

theorem repLoop_fst_zero (n r : Nat) :
    (repLoop n (List.replicate 200 0) r).1 = List.replicate 200 0 := by
  induction r with
  | zero => rfl
  | succ r ih =>
      show xorinto_gpr (repLoop n (List.replicate 200 0) r).1
        benchS1 benchS2 n = List.replicate 200 0
      rw [ih, xorinto_gpr_zero]

/-- One unfolding of the size loop. -/
theorem benchLoop_succ (k : Nat) :
    benchLoop (k + 1) =
      ((repLoop (k + 1) (benchLoop k).1 REPS).1,
       (benchLoop k).2 ++ (repLoop (k + 1) (benchLoop k).1 REPS).2) := rfl

theorem benchLoop_fst_zero (k : Nat) :
    (benchLoop k).1 = List.replicate 200 0 := by
  induction k with
  | zero => rfl
  | succ k ih =>
      rw [benchLoop_succ, ih, repLoop_fst_zero]

theorem benchLoop_trace_length (k : Nat) :
    ((benchLoop k).2).length = k * REPS := by
  induction k with
  | zero => rfl
  | succ k ih =>
      rw [benchLoop_succ]
      simp only [List.length_append, ih, repLoop_trace_length, Nat.succ_mul]

theorem mem_benchLoop_trace (k : Nat) (cs : CallSite)
    (h : cs ∈ (benchLoop k).2) :
    1 ≤ cs.n ∧ cs.n ≤ k ∧ cs.lenDst = 200 ∧ cs.lenA = 200 ∧ cs.lenB = 200 := by
  induction k with
  | zero => simp [benchLoop] at h
  | succ k ih =>
      rw [benchLoop_succ] at h
      simp only [List.mem_append] at h
      rcases h with h | h
      · obtain ⟨h1, h2, h3, h4, h5⟩ := ih h
        exact ⟨h1, Nat.le_succ_of_le h2, h3, h4, h5⟩
      · have hcs := mem_repLoop_trace (k + 1) (benchLoop k).1 REPS cs h
        subst hcs
        refine ⟨Nat.succ_le_succ (Nat.zero_le k), le_refl _, ?_, rfl, rfl⟩
        show ((benchLoop k).1).length = 200
        rw [benchLoop_fst_zero, List.length_replicate]

theorem getD_map_range (f : Nat → Nat) (m i : Nat) (h : i < m) :
    ((List.range m).map f).getD i 0 = f i := by
  rw [List.getD_eq_getElem _ _ (by simpa using h)]
  simp

theorem source1_getD (i : Nat) (h : i < N) :
    source1.getD i 0 = (67 * i) % 256 :=
  getD_map_range (fun j => (67 * j) % 256) N i h

theorem source2_getD (i : Nat) (h : i < N) :
    source2.getD i 0 = i % 256 :=
  getD_map_range (fun j => j % 256) N i h

theorem source1_length : source1.length = 31 := by simp [source1, N]

theorem source2_length : source2.length = 31 := by simp [source2, N]

theorem source1_getD_lt (i : Nat) : source1.getD i 0 < 256 := by
  by_cases h : i < N
  · rw [source1_getD i h]
    exact Nat.mod_lt _ (by decide)
  · rw [List.getD_eq_default _ _ ?_]
    · decide
    · rw [source1_length]
      have hN : N = 31 := rfl
      omega

theorem source2_getD_lt (i : Nat) : source2.getD i 0 < 256 := by
  by_cases h : i < N
  · rw [source2_getD i h]
    exact Nat.mod_lt _ (by decide)
  · rw [List.getD_eq_default _ _ ?_]
    · decide
    · rw [source2_length]
      have hN : N = 31 := rfl
      omega

theorem getD_lt_of_forall (l : List Nat) (i : Nat)
    (hb : ∀ x ∈ l, x < 256) : l.getD i 0 < 256 := by
  by_cases h : i < l.length
  · rw [List.getD_eq_getElem _ _ h]
    exact hb _ (List.getElem_mem h)
  · rw [List.getD_eq_default _ _ (by omega)]
    decide

theorem mem_checkScan_iff (dst : List Nat) (g : Diag) :
    g ∈ checkScan dst ↔
      g.i < N ∧ (source1.getD g.i 0) ^^^ (source2.getD g.i 0) ≠ dst.getD g.i 0 ∧
      g = ⟨g.i, source1.getD g.i 0, source2.getD g.i 0, dst.getD g.i 0⟩ := by
  unfold checkScan
  rw [List.mem_filterMap]
  constructor
  · rintro ⟨j, hj, hopt⟩
    rw [List.mem_range] at hj
    by_cases hm : (source1.getD j 0) ^^^ (source2.getD j 0) ≠ dst.getD j 0
    · rw [if_pos hm] at hopt
      obtain rfl := Option.some.inj hopt
      exact ⟨hj, hm, rfl⟩
    · rw [if_neg hm] at hopt
      exact absurd hopt (by simp)
  · rintro ⟨hi, hm, hg⟩
    refine ⟨g.i, List.mem_range.mpr hi, ?_⟩
    rw [if_pos hm, ← hg]

theorem filterMap_ite {α β : Type} (p : α → Prop) [DecidablePred p]
    (f : α → β) (l : List α) :
    (l.filterMap fun a => if p a then some (f a) else none) =
      (l.filter fun a => decide (p a)).map f := by
  induction l with
  | nil => rfl
  | cons a l ih =>
      by_cases h : p a <;>
        simp [List.filterMap_cons, List.filter_cons, h, ih]

theorem checkScan_eq (dst : List Nat) :
    checkScan dst =
      ((List.range N).filter fun j =>
          decide ((source1.getD j 0) ^^^ (source2.getD j 0) ≠ dst.getD j 0)).map
        fun j => (⟨j, source1.getD j 0, source2.getD j 0, dst.getD j 0⟩ : Diag) :=
  filterMap_ite _ _ _

theorem checkScan_indices (dst : List Nat) :
    (checkScan dst).map Diag.i =
      (List.range 31).filter fun j =>
        decide ((source1.getD j 0) ^^^ (source2.getD j 0) ≠ dst.getD j 0) := by
  rw [checkScan_eq, List.map_map]
  have h : (Diag.i ∘ fun j =>
      (⟨j, source1.getD j 0, source2.getD j 0, dst.getD j 0⟩ : Diag)) = id := rfl
  rw [h, List.map_id]
  rfl

theorem pad_length (w : Nat) (s : String) :
    (pad w s).length = max w s.length := by
  rw [pad, String.length_append, String.length_mk, List.length_replicate]
  omega

theorem repr_length_le_two (n : Nat) (h : n < 100) :
    (Nat.repr n).length ≤ 2 := by
  have hall : ∀ m < 100, (Nat.repr m).length ≤ 2 := by decide
  exact hall n h

theorem fixed2_zero : fixed2 0 = "0.00" := by
  have h : ((round ((0 : ℚ) * 100)).toNat) = 0 := by norm_num
  simp only [fixed2]
  rw [h]
  decide

theorem dataPoint_one_zero : dataPoint 1 0 = "  1,  0.00  " := by
  rw [dataPoint, fixed2_zero]
  decide

theorem fixed2_decomposed (q : ℚ) :
    ∃ w frac, fixed2 q = Nat.repr w ++ "." ++ frac ∧ frac.length = 2 :=
  ⟨_, _, rfl, rfl⟩

theorem digitChar_mem_lowercaseHex (j : Nat) (hj : j < 16) :
    Nat.digitChar j ∈ lowercaseHexDigits := by
  have hall : ∀ m < 16, Nat.digitChar m ∈ lowercaseHexDigits := by decide
  exact hall j hj

theorem hexByte_length (v : Nat) : (hexByte v).length = 2 := rfl

theorem hexByte_chars (v : Nat) :
    ∀ ch ∈ (hexByte v).data, ch ∈ lowercaseHexDigits := by
  intro ch hch
  rcases hch with _ | ⟨_, h⟩
  · exact digitChar_mem_lowercaseHex _ (Nat.mod_lt _ (by decide))
  · rcases h with _ | ⟨_, h⟩
    · exact digitChar_mem_lowercaseHex _ (Nat.mod_lt _ (by decide))
    · exact absurd h (List.not_mem_nil ch)

theorem sizeChunks_length (c : Nat → Nat) (k : Nat) :
    (sizeChunks c k).length = if (k + 1) % 8 = 0 then 2 else 1 := by
  by_cases h : (k + 1) % 8 = 0 <;> simp [sizeChunks, h]

theorem benchChunks_length (c : Nat → Nat) :
    (benchChunks c).length = 96 + 12 := by
  have h1 : ((List.range 96).map (sizeChunks c)).map List.length
      = (List.range 96).map fun k => if (k + 1) % 8 = 0 then 2 else 1 := by
    rw [List.map_map]
    exact List.map_congr_left fun j _ => sizeChunks_length c j
  rw [benchChunks, List.length_flatten, h1]
  decide

/- ------------------------------------------------------------------ -/
/- Claim theorems                                                     -/
/- ------------------------------------------------------------------ -/

/-- C1: for every pair of byte buffers `a` and `b` of length at least `n`, a
destination of capacity at least `n`, and every index `i` in `[0, n)`, after
`xorinto_gpr dst a b n` the byte at index `i` of the destination equals
`a[i] XOR b[i]`. -/
theorem c1_xorinto_byte (a b dst : List Nat) (n i : Nat)
    (ha : n ≤ a.length) (hb : n ≤ b.length) (hdst : n ≤ dst.length)
    (hi : i < n) :
    (xorinto_gpr dst a b n).getD i 0 = (a.getD i 0) ^^^ (b.getD i 0) :=
  getD_xorinto_gpr dst a b n i hi hdst

/-- Witness for C1 at `a = [5, 7]`, `b = [3, 1]`, `n = 2`, `i = 1`. -/
theorem c1_xorinto_byte_witness :
    2 ≤ ([5, 7] : List Nat).length ∧ 2 ≤ ([3, 1] : List Nat).length ∧
    2 ≤ ([0, 0] : List Nat).length ∧ 1 < 2 ∧
    (xorinto_gpr [0, 0] [5, 7] [3, 1] 2).getD 1 0 =
      (([5, 7] : List Nat).getD 1 0) ^^^ (([3, 1] : List Nat).getD 1 0) :=
  ⟨by decide, by decide, by decide, by decide,
   c1_xorinto_byte [5, 7] [3, 1] [0, 0] 2 1 (by decide) (by decide)
     (by decide) (by decide)⟩

/-- C2: the sweep covers the sizes `n = 1..96` in order (sample `k` is for
size `k + 1` and there are 96 samples); for each size the repetition loop
invokes the primitive exactly `REPS = 65536` times back-to-back, every call
passing the three capacity-200 buffers (which stay all-zero); one
cycle-counter reading is taken before the repetition loop and one after
(readings `2k` and `2k + 1`); and the reported mean cycles-per-byte is the
total cycle delta divided by `REPS * n`. -/
theorem c2_bench_sweep (c : Nat → Nat) (k : Nat) (hk : k < 96) :
    (benchSamples c).length = 96 ∧
    (benchSamples c).getD k ⟨0, 0, 0, 0⟩ = benchSample c k ∧
    (benchSample c k).n = k + 1 ∧
    ((repLoop (k + 1) (benchLoop k).1 REPS).2).length = REPS ∧
    (∀ cs ∈ (repLoop (k + 1) (benchLoop k).1 REPS).2,
        cs = ⟨k + 1, 200, 200, 200⟩) ∧
    benchS1 = List.replicate 200 0 ∧
    benchS2 = List.replicate 200 0 ∧
    (benchLoop k).1 = List.replicate 200 0 ∧
    (benchSample c k).startC = u64 (c (2 * k)) ∧
    (benchSample c k).stopC = u64 (c (2 * k + 1)) ∧
    (benchSample c k).cpb =
      ((u64sub ((benchSample c k).stopC) ((benchSample c k).startC) : Nat) : ℚ) /
        ((REPS * (k + 1) : Nat) : ℚ) := by
  refine ⟨by simp [benchSamples], ?_, rfl, repLoop_trace_length _ _ _, ?_,
    rfl, rfl, benchLoop_fst_zero k, rfl, rfl, rfl⟩
  · rw [benchSamples, List.getD_eq_getElem _ _ (by simpa using hk)]
    simp
  · intro cs hcs
    have h := mem_repLoop_trace _ _ _ cs hcs
    rw [h]
    have hlen : ((benchLoop k).1).length = 200 := by
      rw [benchLoop_fst_zero, List.length_replicate]
    rw [hlen]

/-- Witness for C2 at the all-zero oracle and size index `k = 0`. -/
theorem c2_bench_sweep_witness :
    0 < 96 ∧
    ((benchSamples czero).length = 96 ∧
     (benchSamples czero).getD 0 ⟨0, 0, 0, 0⟩ = benchSample czero 0 ∧
     (benchSample czero 0).n = 0 + 1 ∧
     ((repLoop (0 + 1) (benchLoop 0).1 REPS).2).length = REPS ∧
     (∀ cs ∈ (repLoop (0 + 1) (benchLoop 0).1 REPS).2,
         cs = ⟨0 + 1, 200, 200, 200⟩) ∧
     benchS1 = List.replicate 200 0 ∧
     benchS2 = List.replicate 200 0 ∧
     (benchLoop 0).1 = List.replicate 200 0 ∧
     (benchSample czero 0).startC = u64 (czero (2 * 0)) ∧
     (benchSample czero 0).stopC = u64 (czero (2 * 0 + 1)) ∧
     (benchSample czero 0).cpb =
       ((u64sub ((benchSample czero 0).stopC) ((benchSample czero 0).startC) :
           Nat) : ℚ) / ((REPS * (0 + 1) : Nat) : ℚ)) :=
  ⟨by decide, c2_bench_sweep czero 0 (by decide)⟩

/-- C3: the check of `main` builds `source1[i] = (67 * i) mod 256` and
`source2[i] = i` over length `N = 31`, calls the primitive exactly once with
`n = 31` on three length-31 buffers, and compares every one of the 31 output
bytes: an index `i < 31` appears among the diagnostics exactly when
`dst[i] ≠ source1[i] XOR source2[i]`. -/
theorem c3_check_construction (dst : List Nat) (i : Nat) (hi : i < 31) :
    N = 31 ∧ source1.length = 31 ∧ source2.length = 31 ∧
    source1.getD i 0 = (67 * i) % 256 ∧
    source2.getD i 0 = i ∧
    mainCallSites = [⟨N, N, N, N⟩] ∧
    ((∃ g ∈ checkScan dst, g.i = i) ↔
      (source1.getD i 0) ^^^ (source2.getD i 0) ≠ dst.getD i 0) := by
  have hiN : i < N := hi
  refine ⟨rfl, source1_length, source2_length, source1_getD i hiN, ?_, rfl, ?_⟩
  · rw [source2_getD i hiN]
    omega
  · constructor
    · rintro ⟨g, hg, hgi⟩
      obtain ⟨_, hm, _⟩ := (mem_checkScan_iff dst g).mp hg
      rwa [hgi] at hm
    · intro hm
      exact ⟨⟨i, source1.getD i 0, source2.getD i 0, dst.getD i 0⟩,
        (mem_checkScan_iff dst _).mpr ⟨hiN, hm, rfl⟩, rfl⟩

/-- Witness for C3 at the all-zero result buffer and index `i = 1`. -/
theorem c3_check_construction_witness :
    1 < 31 ∧
    (N = 31 ∧ source1.length = 31 ∧ source2.length = 31 ∧
     source1.getD 1 0 = (67 * 1) % 256 ∧
     source2.getD 1 0 = 1 ∧
     mainCallSites = [⟨N, N, N, N⟩] ∧
     ((∃ g ∈ checkScan (List.replicate 31 0), g.i = 1) ↔
       (source1.getD 1 0) ^^^ (source2.getD 1 0) ≠
         (List.replicate 31 0).getD 1 0)) :=
  ⟨by decide, c3_check_construction (List.replicate 31 0) 1 (by decide)⟩

/-- C4: on a mismatch at index `i < 31` the check emits the diagnostic
carrying that index and the three bytes `source1[i]`, `source2[i]`,
`dst[i]`, and the scan is complete: the emitted diagnostics are exactly one
per mismatching index of `[0, 31)`, in order — no abort on the first
mismatch. -/
theorem c4_full_scan (dst : List Nat) (i : Nat) (hi : i < 31)
    (hm : (source1.getD i 0) ^^^ (source2.getD i 0) ≠ dst.getD i 0) :
    (⟨i, source1.getD i 0, source2.getD i 0, dst.getD i 0⟩ : Diag) ∈
        checkScan dst ∧
    (checkScan dst).map Diag.i =
      (List.range 31).filter fun j =>
        decide ((source1.getD j 0) ^^^ (source2.getD j 0) ≠ dst.getD j 0) :=
  ⟨(mem_checkScan_iff dst _).mpr ⟨hi, hm, rfl⟩, checkScan_indices dst⟩

/-- Witness for C4 at `dst = [1]` (mismatch at index 0, since
`source1[0] XOR source2[0] = 0 ≠ 1`). -/
theorem c4_full_scan_witness :
    0 < 31 ∧
    (source1.getD 0 0) ^^^ (source2.getD 0 0) ≠ ([1] : List Nat).getD 0 0 ∧
    ((⟨0, source1.getD 0 0, source2.getD 0 0,
        ([1] : List Nat).getD 0 0⟩ : Diag) ∈ checkScan [1] ∧
     (checkScan [1]).map Diag.i =
       (List.range 31).filter fun j =>
         decide ((source1.getD j 0) ^^^ (source2.getD j 0) ≠
           ([1] : List Nat).getD j 0)) :=
  ⟨by decide, by decide, c4_full_scan [1] 0 (by decide) (by decide)⟩

/-- C5 counterexample: the claim says the two fields of a data point are
space-separated, but the format string is `"%3llu, %5.2f  "`: already for
size 1 with a zero cycle delta the printed data point is `"  1,  0.00  "`,
and no decomposition of it into the width-3 field and the width-5 field
joined (and surrounded) by spaces only exists, because the separator between
the fields contains the comma. -/
theorem c5_counterexample :
    dataPoint 1 0 = "  1,  0.00  " ∧
    ¬ spaceSeparatedPoint 1 0 (dataPoint 1 0) := by
  refine ⟨dataPoint_one_zero, ?_⟩
  rintro ⟨l, sep, r, hl, hsep, hr, hs⟩
  have hmem : (',') ∈ (dataPoint 1 0).data := by
    rw [dataPoint_one_zero]
    decide
  rw [hs] at hmem
  have h3 : pad 3 (Nat.repr 1) = "  1" := by decide
  have h5 : pad 5 (fixed2 0) = " 0.00" := by
    rw [fixed2_zero]
    decide
  rw [h3, h5] at hmem
  rw [String.data_append, String.data_append, String.data_append,
    String.data_append] at hmem
  rcases List.mem_append.mp hmem with hm1 | hmr
  · rcases List.mem_append.mp hm1 with hm2 | hmy
    · rcases List.mem_append.mp hm2 with hm3 | hmsep
      · rcases List.mem_append.mp hm3 with hml | hmx
        · exact absurd (hl _ hml) (by decide)
        · exact absurd hmx (by decide)
      · exact absurd (hsep _ hmsep) (by decide)
    · exact absurd hmy (by decide)
  · exact absurd (hr _ hmr) (by decide)

/-- C5 (amended): for each of the 96 benchmark sizes the program prints
exactly one data point — `n` right-justified in width 3 and the mean
cycles-per-byte fixed to 2 decimal places in minimum width 5 — with the two
fields separated by a comma and a space (and two trailing spaces after the
point), and a newline is emitted after every 8th size, for 96 + 12 output
chunks in total. -/
theorem c5_output_format (c : Nat → Nat) (k : Nat) (hk : k < 96) :
    sizeChunks c k =
      [dataPoint (k + 1) ((benchSample c k).cpb)] ++
        (if (k + 1) % 8 = 0 then ["\n"] else []) ∧
    dataPoint (k + 1) ((benchSample c k).cpb) =
      pad 3 (Nat.repr (k + 1)) ++ ", " ++
        pad 5 (fixed2 ((benchSample c k).cpb)) ++ "  " ∧
    (pad 3 (Nat.repr (k + 1))).length = 3 ∧
    (pad 5 (fixed2 ((benchSample c k).cpb))).length =
      max 5 (fixed2 ((benchSample c k).cpb)).length ∧
    (∃ w frac, fixed2 ((benchSample c k).cpb) =
        Nat.repr w ++ "." ++ frac ∧ frac.length = 2) ∧
    (benchChunks c).length = 96 + 12 := by
  refine ⟨rfl, rfl, ?_, pad_length 5 _, fixed2_decomposed _,
    benchChunks_length c⟩
  rw [pad_length]
  have h2 : (Nat.repr (k + 1)).length ≤ 2 :=
    repr_length_le_two (k + 1) (by omega)
  omega

/-- Witness for the amended C5 at the all-zero oracle and size index 0. -/
theorem c5_output_format_witness :
    0 < 96 ∧
    (sizeChunks czero 0 =
       [dataPoint (0 + 1) ((benchSample czero 0).cpb)] ++
         (if (0 + 1) % 8 = 0 then ["\n"] else []) ∧
     dataPoint (0 + 1) ((benchSample czero 0).cpb) =
       pad 3 (Nat.repr (0 + 1)) ++ ", " ++
         pad 5 (fixed2 ((benchSample czero 0).cpb)) ++ "  " ∧
     (pad 3 (Nat.repr (0 + 1))).length = 3 ∧
     (pad 5 (fixed2 ((benchSample czero 0).cpb))).length =
       max 5 (fixed2 ((benchSample czero 0).cpb)).length ∧
     (∃ w frac, fixed2 ((benchSample czero 0).cpb) =
         Nat.repr w ++ "." ++ frac ∧ frac.length = 2) ∧
     (benchChunks czero).length = 96 + 12) :=
  ⟨by decide, c5_output_format czero 0 (by decide)⟩

/-- C6: every mismatch diagnostic is the line
`i=<index>, <s1-hex>, <s2-hex>, <dst-hex>` (framed by the format string's
leading and trailing newlines), where the index is printed as its unsigned
decimal representation and each of the three bytes as exactly two lowercase
hexadecimal digits. -/
theorem c6_diag_format (dst : List Nat) (g : Diag)
    (hb : ∀ x ∈ dst, x < 256) (hg : g ∈ checkScan dst) :
    diagChunk g =
      "\n" ++ ("i=" ++ Nat.repr g.i ++ ", " ++ hexByte g.s1 ++ ", " ++
        hexByte g.s2 ++ ", " ++ hexByte g.d) ++ "\n" ∧
    g.s1 < 256 ∧ g.s2 < 256 ∧ g.d < 256 ∧
    (hexByte g.s1).length = 2 ∧ (hexByte g.s2).length = 2 ∧
    (hexByte g.d).length = 2 ∧
    (∀ ch ∈ (hexByte g.s1).data, ch ∈ lowercaseHexDigits) ∧
    (∀ ch ∈ (hexByte g.s2).data, ch ∈ lowercaseHexDigits) ∧
    (∀ ch ∈ (hexByte g.d).data, ch ∈ lowercaseHexDigits) := by
  obtain ⟨hi, hm, hfields⟩ := (mem_checkScan_iff dst g).mp hg
  have hs1 : g.s1 = source1.getD g.i 0 := by rw [hfields]
  have hs2 : g.s2 = source2.getD g.i 0 := by rw [hfields]
  have hd : g.d = dst.getD g.i 0 := by rw [hfields]
  refine ⟨?_, ?_, ?_, ?_, rfl, rfl, rfl, hexByte_chars _, hexByte_chars _,
    hexByte_chars _⟩
  · apply String.ext
    simp [diagChunk, String.data_append]
  · rw [hs1]
    exact source1_getD_lt _
  · rw [hs2]
    exact source2_getD_lt _
  · rw [hd]
    exact getD_lt_of_forall dst _ hb

/-- Witness for C6 at `dst` all-ones (mismatch at index 0, diagnostic
`⟨0, 0, 0, 1⟩`). -/
theorem c6_diag_format_witness :
    (∀ x ∈ List.replicate 31 1, x < 256) ∧
    (⟨0, 0, 0, 1⟩ : Diag) ∈ checkScan (List.replicate 31 1) ∧
    (diagChunk ⟨0, 0, 0, 1⟩ =
       "\n" ++ ("i=" ++ Nat.repr (⟨0, 0, 0, 1⟩ : Diag).i ++ ", " ++
         hexByte (⟨0, 0, 0, 1⟩ : Diag).s1 ++ ", " ++
         hexByte (⟨0, 0, 0, 1⟩ : Diag).s2 ++ ", " ++
         hexByte (⟨0, 0, 0, 1⟩ : Diag).d) ++ "\n" ∧
     (⟨0, 0, 0, 1⟩ : Diag).s1 < 256 ∧ (⟨0, 0, 0, 1⟩ : Diag).s2 < 256 ∧
     (⟨0, 0, 0, 1⟩ : Diag).d < 256 ∧
     (hexByte (⟨0, 0, 0, 1⟩ : Diag).s1).length = 2 ∧
     (hexByte (⟨0, 0, 0, 1⟩ : Diag).s2).length = 2 ∧
     (hexByte (⟨0, 0, 0, 1⟩ : Diag).d).length = 2 ∧
     (∀ ch ∈ (hexByte (⟨0, 0, 0, 1⟩ : Diag).s1).data,
        ch ∈ lowercaseHexDigits) ∧
     (∀ ch ∈ (hexByte (⟨0, 0, 0, 1⟩ : Diag).s2).data,
        ch ∈ lowercaseHexDigits) ∧
     (∀ ch ∈ (hexByte (⟨0, 0, 0, 1⟩ : Diag).d).data,
        ch ∈ lowercaseHexDigits)) :=
  ⟨by decide, by decide,
   c6_diag_format (List.replicate 31 1) ⟨0, 0, 0, 1⟩ (by decide) (by decide)⟩

/-- C7: the process exit status is always zero — `main` has no `return`
statement and no call to `exit` or `abort`, so control falls off its end,
which per C99 yields status 0, for every result of the external primitive
and every cycle-counter oracle. -/
theorem c7_exit_status_zero (dst : List Nat) (c : Nat → Nat) :
    (mainRun dst c).2 = 0 := rfl

/-- C8: the benchmark runs to completion — every loop of the embedding is a
structural recursion over a fixed bound, so `benchCallSites` is a total
computation — performing exactly `96 × 65536` calls to the XOR
primitive. -/
theorem c8_call_count : benchCallSites.length = 96 * 65536 := by
  show ((benchLoop 96).2).length = 96 * 65536
  rw [benchLoop_trace_length]
  rfl

/-- C9: XORing a buffer with itself gives zero at every index below `n`: for
every buffer `a` of length at least `n` and destination of capacity at least
`n`, `xorinto_gpr dst a a n` holds the byte 0 at every index in `[0, n)`. -/
theorem c9_xorinto_self_zero (a dst : List Nat) (n i : Nat)
    (ha : n ≤ a.length) (hdst : n ≤ dst.length) (hi : i < n) :
    (xorinto_gpr dst a a n).getD i 0 = 0 := by
  rw [getD_xorinto_gpr dst a a n i hi hdst]
  exact Nat.xor_self _

/-- Witness for C9 at `a = [9, 4]`, `n = 2`, `i = 0`. -/
theorem c9_xorinto_self_zero_witness :
    2 ≤ ([9, 4] : List Nat).length ∧ 2 ≤ ([7, 7] : List Nat).length ∧
    0 < 2 ∧ (xorinto_gpr [7, 7] [9, 4] [9, 4] 2).getD 0 0 = 0 :=
  ⟨by decide, by decide, by decide,
   c9_xorinto_self_zero [9, 4] [7, 7] 2 0 (by decide) (by decide) (by decide)⟩

/-- C10: at every call site of the XOR primitive in the program, the caller
obligation `n ≤ min(len(dst), len(a), len(b))` holds: `main` passes `n = 31`
with three length-31 buffers, and `bench` passes `n ≤ 96` with three
capacity-200 buffers. -/
theorem c10_callsites_safe (cs : CallSite) (h : cs ∈ programCallSites) :
    cs.n ≤ min cs.lenDst (min cs.lenA cs.lenB) := by
  rw [programCallSites] at h
  rcases List.mem_append.mp h with h | h
  · have hcs : cs = ⟨N, N, N, N⟩ := by
      simpa [mainCallSites] using h
    rw [hcs]
    decide
  · obtain ⟨h1, h2, h3, h4, h5⟩ := mem_benchLoop_trace 96 cs h
    rw [h3, h4, h5]
    have h96 : cs.n ≤ 96 := h2
    omega

/-- Witness for C10 at the call site of `main`. -/
theorem c10_callsites_safe_witness :
    (⟨31, 31, 31, 31⟩ : CallSite) ∈ programCallSites ∧
    (⟨31, 31, 31, 31⟩ : CallSite).n ≤
      min (⟨31, 31, 31, 31⟩ : CallSite).lenDst
        (min (⟨31, 31, 31, 31⟩ : CallSite).lenA
          (⟨31, 31, 31, 31⟩ : CallSite).lenB) :=
  have hm : (⟨31, 31, 31, 31⟩ : CallSite) ∈ programCallSites :=
    List.mem_append_left benchCallSites (by decide)
  ⟨hm, c10_callsites_safe ⟨31, 31, 31, 31⟩ hm⟩

end XorTest
